import Mathlib

/-!
# Verification of the parchi intake pipeline of `backend-parchi`

The repository's parchi subsystem converts a photographed appointment chit
into patient and appointment records.  The source tree ships the frontend
caller (`processParchi` and the `ParchiProcessResult` /
`ParchiProcessResponse` types) and the SQL schemas; the backend pipeline
itself (normalizer, dedup engine, batch orchestrator, aggregator) is not
part of the tree, so its behaviour is modelled from the specification.

Strings are embedded as `List Char`; timestamps as `Nat` minutes since an
epoch in the clinic's local timezone (`calendarDate` extracts the day).
-/

namespace Parchi

/-! ## Phone normalization (spec 4.3) -/

/-- Modelled from the spec: phone normalization first strips every
non-digit character.  (The backend normalizer is not in the tree.) -/
def digitsOnly (s : List Char) : List Char :=
  s.filter Char.isDigit

/-- Modelled from the spec: remove a recognized country-calling-code
from a digits-only phone: a leading `91` on a 12-digit number, or a
leading trunk `0` on an 11-digit number.  (The backend normalizer is
not in the tree.) -/
def stripCC (d : List Char) : List Char :=
  if d.length == 12 && d.take 2 == ['9', '1'] then d.drop 2
  else if d.length == 11 && d.take 1 == ['0'] then d.drop 1
  else d

/-- Modelled from the spec: canonical phone is the digits of the input
with the country code removed, accepted only when exactly 10 digits
remain.  (The backend normalizer is not in the tree.) -/
def normalizePhone (p : List Char) : Option (List Char) :=
  let d := stripCC (digitsOnly p)
  if d.length == 10 then some d else none

/-- The spec's example input with country code and separators. -/
def examplePhoneA : List Char :=
  ['+', '9', '1', ' ', '9', '8', '7', '6', '5', '-', '4', '3', '2', '1', '0']

/-- The spec's example input already in canonical form. -/
def examplePhoneB : List Char :=
  ['9', '8', '7', '6', '5', '4', '3', '2', '1', '0']

/-! ## Data model (spec 3, and `ParchiEntry` of the frontend client) -/

/-- One reviewed entry submitted to the Process operation: `{name, phone,
appointment_time}` as in `processParchi`.  `appointment_time` is `none`
when the schedule field is absent or unparsable. -/
structure RawEntry where
  name : List Char
  phone : List Char
  appointment_time : Option Nat
deriving Repr, DecidableEq

/-- Modelled from the spec: the per-entry validation failure reasons of
the Normalizer (the backend normalizer is not in the tree). -/
inductive EntryError where
  | missing_phone
  | invalid_phone
  | missing_schedule
  | missing_name
deriving Repr, DecidableEq

/-- A validated entry: canonical phone and absolute timestamp. -/
structure NormalizedEntry where
  name : List Char
  phone_canonical : List Char
  appointment_time : Nat
deriving Repr, DecidableEq

/-- Modelled from the spec: the Normalizer checks the phone, then the
schedule, then the name, and rejects with the first failing reason
(the backend normalizer is not in the tree). -/
def normalizeEntry (e : RawEntry) : Except EntryError NormalizedEntry :=
  match normalizePhone e.phone with
  | none =>
      .error (if digitsOnly e.phone == ([] : List Char) then
        .missing_phone else .invalid_phone)
  | some c =>
      match e.appointment_time with
      | none => .error .missing_schedule
      | some t =>
          if e.name == ([] : List Char) then .error .missing_name
          else .ok ⟨e.name, c, t⟩

/-! ## Registry (spec 6 collaborator interfaces) -/

/-- A registry patient row, identified by a stable id and phone. -/
structure Patient where
  id : Nat
  name : List Char
  phone : List Char
deriving Repr, DecidableEq

/-- A registry appointment row. -/
structure Appointment where
  id : Nat
  patient_id : Nat
  start_time : Nat
deriving Repr, DecidableEq

/-- The external patient/appointment registry, with id counters. -/
structure Registry where
  patients : List Patient
  appointments : List Appointment
  nextPatientId : Nat
  nextApptId : Nat
deriving Repr, DecidableEq

def emptyRegistry : Registry := ⟨[], [], 0, 0⟩

/-- Minutes per calendar day; timestamps are minutes since an epoch. -/
def minutesPerDay : Nat := 1440

/-- The calendar date of a timestamp. -/
def calendarDate (t : Nat) : Nat := t / minutesPerDay

/-- `Registry.findPatientByPhone`: first patient with the given phone. -/
def findPatientByPhone (reg : Registry) (phone : List Char) : Option Patient :=
  reg.patients.find? (fun p => p.phone == phone)

/-- `Registry.findAppointment`: does the patient already have an
appointment on the given calendar date? -/
def hasAppointmentOn (reg : Registry) (pid day : Nat) : Bool :=
  reg.appointments.any
    (fun a => a.patient_id == pid && calendarDate a.start_time == day)

/-- `Registry.createPatient`: append a fresh patient row. -/
def createPatient (reg : Registry) (name phone : List Char) :
    Patient × Registry :=
  let p : Patient := ⟨reg.nextPatientId, name, phone⟩
  (p, { reg with
          patients := reg.patients ++ [p]
          nextPatientId := reg.nextPatientId + 1 })

/-- `Registry.createAppointment`: append a fresh appointment row. -/
def createAppointment (reg : Registry) (pid t : Nat) :
    Appointment × Registry :=
  let a : Appointment := ⟨reg.nextApptId, pid, t⟩
  (a, { reg with
          appointments := reg.appointments ++ [a]
          nextApptId := reg.nextApptId + 1 })

/-! ## Dedup & matching engine (spec 4.4) -/

/-- The four match decisions of the Dedup Engine. -/
inductive MatchDecision where
  | new_patient
  | existing_patient (patient_id : Nat)
  | duplicate_in_batch
  | duplicate_existing_appointment
deriving Repr, DecidableEq

/-- Modelled from the spec: the Dedup Engine's algorithm; the batch-order
duplicate check is applied before the registry duplicate-appointment
check (tie-break rule).  (The backend dedup engine is not in the tree.) -/
def matchEntry (reg : Registry) (seen : List (List Char))
    (n : NormalizedEntry) : MatchDecision :=
  if seen.contains n.phone_canonical then .duplicate_in_batch
  else
    match findPatientByPhone reg n.phone_canonical with
    | some p =>
        if hasAppointmentOn reg p.id (calendarDate n.appointment_time) then
          .duplicate_existing_appointment
        else .existing_patient p.id
    | none => .new_patient

/-! ## Batch orchestrator (spec 4.5, 4.6) and result aggregator (4.7) -/

/-- Outcome of the messaging-gateway call for one entry. -/
structure NotifyOutcome where
  sent : Bool
  error : Option (List Char)
deriving Repr, DecidableEq

/-- One outcome record per input entry, mirroring `ParchiProcessResult`
of the frontend client (which adds `intake_link` and names the
notification fields `whatsapp_sent` / `whatsapp_error`).  `intake_link`
is embedded as the id of the appointment the link points at, and the
ghost field `decision` records the dedup decision for valid entries. -/
structure ProcessResult where
  name : List Char
  phone : List Char
  appointment_time : Option Nat
  is_new_patient : Bool
  is_duplicate : Bool
  patient_id : Option Nat
  appointment_id : Option Nat
  intake_link : Option Nat
  whatsapp_sent : Bool
  whatsapp_error : Option (List Char)
  error : Option EntryError
  decision : Option MatchDecision
deriving Repr, DecidableEq

/-- Result for an entry the Normalizer rejected: the failure reason is
recorded and nothing else happens. -/
def errorResult (e : RawEntry) (r : EntryError) : ProcessResult :=
  { name := e.name, phone := e.phone, appointment_time := e.appointment_time
    is_new_patient := false, is_duplicate := false
    patient_id := none, appointment_id := none, intake_link := none
    whatsapp_sent := false, whatsapp_error := none
    error := some r, decision := none }

/-- Result for a duplicate entry: creation and notification skipped. -/
def dupResult (e : RawEntry) (d : MatchDecision) : ProcessResult :=
  { name := e.name, phone := e.phone, appointment_time := e.appointment_time
    is_new_patient := false, is_duplicate := true
    patient_id := none, appointment_id := none, intake_link := none
    whatsapp_sent := false, whatsapp_error := none
    error := none, decision := some d }

/-- Result for an entry whose appointment (and possibly patient) was
created; the notification outcome is recorded alongside. -/
def createdResult (e : RawEntry) (isNew : Bool) (pid aid : Nat)
    (d : MatchDecision) (notif : NotifyOutcome) : ProcessResult :=
  { name := e.name, phone := e.phone, appointment_time := e.appointment_time
    is_new_patient := isNew, is_duplicate := false
    patient_id := some pid, appointment_id := some aid
    intake_link := some aid
    whatsapp_sent := notif.sent, whatsapp_error := notif.error
    error := none, decision := some d }

/-- Orchestrator state while a batch runs: the shared registry plus the
canonical phones already resolved by earlier entries of the batch. -/
structure StepState where
  reg : Registry
  seen : List (List Char)
deriving Repr, DecidableEq

/-- Modelled from the spec: one entry's unit of work
(normalize, match, create, notify).  Invalid entries never reach the
dedup stage or the registry; duplicates skip creation and notification;
created entries get a patient (when new), an appointment, an intake
link, and a notification attempt.  (The backend orchestrator is not in
the tree.) -/
def processOne (st : StepState) (e : RawEntry) (notif : NotifyOutcome) :
    StepState × ProcessResult :=
  match normalizeEntry e with
  | .error r => (st, errorResult e r)
  | .ok n =>
      let seen' := n.phone_canonical :: st.seen
      match matchEntry st.reg st.seen n with
      | .duplicate_in_batch =>
          (⟨st.reg, seen'⟩, dupResult e .duplicate_in_batch)
      | .duplicate_existing_appointment =>
          (⟨st.reg, seen'⟩, dupResult e .duplicate_existing_appointment)
      | .existing_patient pid =>
          let ar := createAppointment st.reg pid n.appointment_time
          (⟨ar.2, seen'⟩,
            createdResult e false pid ar.1.id (.existing_patient pid) notif)
      | .new_patient =>
          let pr := createPatient st.reg n.name n.phone_canonical
          let ar := createAppointment pr.2 pr.1.id n.appointment_time
          (⟨ar.2, seen'⟩,
            createdResult e true pr.1.id ar.1.id .new_patient notif)

/-- Modelled from the spec: entries are processed in input order and the
results are collected in that order; `k i` is the messaging-gateway
outcome for the i-th entry.  (The backend orchestrator is not in the
tree.) -/
def processList (st : StepState) (k : Nat → NotifyOutcome) :
    List RawEntry → StepState × List ProcessResult
  | [] => (st, [])
  | e :: es =>
      let p1 := processOne st e (k 0)
      let p2 := processList p1.1 (fun i => k (i + 1)) es
      (p2.1, p1.2 :: p2.2)

/-- Modelled from the spec: the Process operation — run a whole batch
against a registry, starting with no batch-local resolved phones.
(The backend orchestrator is not in the tree.) -/
def processBatch (reg : Registry) (entries : List RawEntry)
    (k : Nat → NotifyOutcome) : Registry × List ProcessResult :=
  let p := processList ⟨reg, []⟩ k entries
  (p.1.reg, p.2)

/-- The batch-level counts of `ParchiProcessResponse.summary`. -/
structure BatchSummary where
  total : Nat
  processed : Nat
  duplicates : Nat
  whatsapp_sent : Nat
  errors : Nat
deriving Repr, DecidableEq

/-- Modelled from the spec: the Result Aggregator is a pure count of the
results by outcome category.  (The backend aggregator is not in the
tree.) -/
def summarize (rs : List ProcessResult) : BatchSummary :=
  { total := rs.length
    processed :=
      (rs.filter (fun r => r.error.isNone && !r.is_duplicate)).length
    duplicates := (rs.filter (fun r => r.is_duplicate)).length
    whatsapp_sent := (rs.filter (fun r => r.whatsapp_sent)).length
    errors := (rs.filter (fun r => r.error.isSome)).length }

/-- Every call succeeds at the messaging gateway. -/
def allNotifyOk : Nat → NotifyOutcome := fun _ => ⟨true, none⟩

/-! ## Claim C1: reprocessing an accepted batch creates nothing -/

/-- `b` is `a` with rows appended — the pipeline only appends rows. -/
def RegExtends (a b : Registry) : Prop :=
  (∃ ps, b.patients = a.patients ++ ps) ∧
  (∃ la, b.appointments = a.appointments ++ la)

/-- The registry already covers an entry: a patient with its canonical
phone exists (first match) and has an appointment on the same calendar
date. -/
def coveredEntry (reg : Registry) (n : NormalizedEntry) : Bool :=
  match findPatientByPhone reg n.phone_canonical with
  | some p => hasAppointmentOn reg p.id (calendarDate n.appointment_time)
  | none => false

/-! ## Claim C9: the SQL schema enforces no phone/appointment uniqueness

Embedded from `backend/reset_and_seed.sql` (and `supabase/seed.sql`):
`patients` has `id TEXT PRIMARY KEY`, `name TEXT NOT NULL` and a
nullable `phone TEXT` with no UNIQUE constraint; `appointments` has
`id TEXT PRIMARY KEY`, a nullable foreign key `patient_id` and
`start_time TIMESTAMPTZ NOT NULL`, with no per-patient-per-time
uniqueness. -/

/-- A `patients` row: `id` and `name` are NOT NULL (by type), `phone`
is a nullable TEXT column. -/
structure PatientRow where
  id : List Char
  name : List Char
  phone : Option (List Char)
deriving Repr, DecidableEq

/-- An `appointments` row: `id` and `start_time` NOT NULL, `patient_id`
a nullable reference into `patients`. -/
structure AppointmentRow where
  id : List Char
  patient_id : Option (List Char)
  start_time : Nat
deriving Repr, DecidableEq

def allDistinct : List (List Char) → Bool
  | [] => true
  | x :: xs => !xs.contains x && allDistinct xs

/-- The declared constraints of the `patients` table: only the primary
key on `id` (no UNIQUE on `phone`). -/
def patientsTableOk (rows : List PatientRow) : Bool :=
  allDistinct (rows.map (fun r => r.id))

/-- The declared constraints of the `appointments` table: the primary
key on `id` and the foreign key on `patient_id` — nothing about
`(patient_id, start_time)`. -/
def appointmentsTableOk (ps : List PatientRow)
    (rows : List AppointmentRow) : Bool :=
  allDistinct (rows.map (fun r => r.id)) &&
  rows.all (fun r =>
    match r.patient_id with
    | some pid => ps.any (fun p => p.id == pid)
    | none => true)

/-- Two patient rows sharing one canonical phone. -/
def twoPatientsSamePhone : List PatientRow :=
  [⟨['p', '1'], ['A'], some examplePhoneB⟩,
   ⟨['p', '2'], ['B'], some examplePhoneB⟩]

/-- Two appointments of patient `p1` on the same calendar date. -/
def twoSameDayAppointments : List AppointmentRow :=
  [⟨['a', '1'], some ['p', '1'], 600⟩,
   ⟨['a', '2'], some ['p', '1'], 660⟩]

/-! ## Claim C10: intake tokens default to pending with a 24-hour expiry

Embedded from `backend/migrations_intake.sql`: `intake_tokens` has
`status TEXT DEFAULT 'pending'`, `created_at TIMESTAMPTZ DEFAULT NOW()`
and `expires_at TIMESTAMPTZ DEFAULT (NOW() + interval '24 hours')`. -/

/-- An insert into `intake_tokens`: `none` means the column was omitted
and takes its DDL default. -/
structure IntakeTokenInsert where
  token : List Char
  patient_id : Option (List Char)
  appointment_id : Option (List Char)
  phone : List Char
  status : Option (List Char)
  created_at : Option Nat
  expires_at : Option Nat
deriving Repr, DecidableEq

/-- A stored `intake_tokens` row after defaults are applied. -/
structure IntakeTokenRow where
  token : List Char
  patient_id : Option (List Char)
  appointment_id : Option (List Char)
  phone : List Char
  status : List Char
  created_at : Nat
  expires_at : Nat
deriving Repr, DecidableEq

def pendingStatus : List Char := ['p', 'e', 'n', 'd', 'i', 'n', 'g']

/-- The DDL defaults of `intake_tokens`, applied at insert time `now`
(minutes): `status` defaults to `'pending'`, `created_at` to `NOW()`,
`expires_at` to `NOW() + interval '24 hours'`. -/
def applyIntakeDefaults (now : Nat) (r : IntakeTokenInsert) :
    IntakeTokenRow :=
  { token := r.token, patient_id := r.patient_id
    appointment_id := r.appointment_id, phone := r.phone
    status := r.status.getD pendingStatus
    created_at := r.created_at.getD now
    expires_at := r.expires_at.getD (now + 24 * 60) }

theorem digitsOnly_all_digit (s : List Char) :
    ∀ c ∈ digitsOnly s, c.isDigit = true := by
  intro c hc
  exact (List.mem_filter.mp hc).2

theorem digitsOnly_of_all_digit (s : List Char)
    (h : ∀ c ∈ s, c.isDigit = true) : digitsOnly s = s :=
  List.filter_eq_self.mpr h

theorem stripCC_all_digit (d : List Char)
    (h : ∀ c ∈ d, c.isDigit = true) :
    ∀ c ∈ stripCC d, c.isDigit = true := by
  intro c hc
  unfold stripCC at hc
  split at hc
  · exact h c (List.mem_of_mem_drop hc)
  · split at hc
    · exact h c (List.mem_of_mem_drop hc)
    · exact h c hc

theorem stripCC_length_ten (d : List Char) (h : d.length = 10) :
    stripCC d = d := by
  unfold stripCC
  rw [h]
  simp

/-- A canonical phone is a 10-digit all-digit string. -/
theorem normalizePhone_some (p c : List Char)
    (h : normalizePhone p = some c) :
    c.length = 10 ∧ ∀ ch ∈ c, ch.isDigit = true := by
  simp only [normalizePhone] at h
  split at h
  case isTrue h10 =>
    cases h
    exact ⟨by simpa using h10,
      stripCC_all_digit _ (digitsOnly_all_digit p)⟩
  case isFalse h10 => cases h

theorem normalizePhone_canonical_fixed (p c : List Char)
    (h : normalizePhone p = some c) : normalizePhone c = some c := by
  obtain ⟨hlen, hdig⟩ := normalizePhone_some p c h
  simp only [normalizePhone]
  rw [digitsOnly_of_all_digit c hdig, stripCC_length_ten c hlen, hlen]
  simp

/-! ## Claim C5: idempotent phone normalization -/

/-- C5: Phone normalization is idempotent — renormalizing a canonical
phone returns it unchanged (`(normalizePhone p).bind normalizePhone =
normalizePhone p`) — and the spec's two example inputs
`"+91 98765-43210"` and `"9876543210"` normalize to the same canonical
value. -/
theorem normalizePhone_idempotent_and_example :
    (∀ p, (normalizePhone p).bind normalizePhone = normalizePhone p) ∧
    normalizePhone examplePhoneA = normalizePhone examplePhoneB ∧
    normalizePhone examplePhoneB = some examplePhoneB := by
  refine ⟨?_, by decide, by decide⟩
  intro p
  cases hp : normalizePhone p with
  | none => rfl
  | some c =>
      simpa [Option.bind] using normalizePhone_canonical_fixed p c hp

/-! ## Claim C4: invalid entries are recorded and never processed -/

/-- C4: an entry the Normalizer rejects leaves the orchestrator state
(registry and batch-dedup context) untouched and is recorded directly as
a `ProcessResult` carrying the error reason; when the rejection is for
the phone (digits after country-code removal not exactly 10), the reason
is `missing_phone` or `invalid_phone`. -/
theorem invalid_entry_recorded_not_processed (st : StepState)
    (e : RawEntry) (notif : NotifyOutcome) (r : EntryError)
    (h : normalizeEntry e = .error r) :
    (processOne st e notif).1 = st ∧
    (processOne st e notif).2.error = some r ∧
    (processOne st e notif).2.decision = none ∧
    (processOne st e notif).2.patient_id = none ∧
    (processOne st e notif).2.appointment_id = none ∧
    ((stripCC (digitsOnly e.phone)).length ≠ 10 →
      r = .missing_phone ∨ r = .invalid_phone) := by
  refine ⟨?_, ?_, ?_, ?_, ?_, ?_⟩
  · simp [processOne, h]
  · simp [processOne, h, errorResult]
  · simp [processOne, h, errorResult]
  · simp [processOne, h, errorResult]
  · simp [processOne, h, errorResult]
  · intro hlen
    have hnp : normalizePhone e.phone = none := by
      simp only [normalizePhone, ite_eq_right_iff]
      intro hbeq
      exact absurd (by simpa using hbeq) hlen
    rw [normalizeEntry, hnp] at h
    by_cases hd : digitsOnly e.phone = ([] : List Char)
    · left
      simp [hd] at h
      exact h.symm
    · right
      simp [hd] at h
      exact h.symm

/-- Witness for C4 at a concrete entry with an empty phone. -/
theorem invalid_entry_recorded_witness :
    (processOne ⟨emptyRegistry, []⟩ ⟨['R'], [], some 600⟩ ⟨true, none⟩).1
      = ⟨emptyRegistry, []⟩ ∧
    (processOne ⟨emptyRegistry, []⟩ ⟨['R'], [], some 600⟩
      ⟨true, none⟩).2.error = some .missing_phone := by
  have h := invalid_entry_recorded_not_processed ⟨emptyRegistry, []⟩
    ⟨['R'], [], some 600⟩ ⟨true, none⟩ .missing_phone rfl
  exact ⟨h.1, h.2.1⟩

/-! ## Claim C2: the batch summary counts partition the batch -/

theorem processOne_error_not_dup (st : StepState) (e : RawEntry)
    (notif : NotifyOutcome) :
    (processOne st e notif).2.error.isSome = true →
    (processOne st e notif).2.is_duplicate = false := by
  unfold processOne
  cases hn : normalizeEntry e with
  | error r => simp [errorResult]
  | ok n =>
      cases hm : matchEntry st.reg st.seen n <;>
        simp [hm, dupResult, createdResult]

theorem processList_error_not_dup (entries : List RawEntry) :
    ∀ (st : StepState) (k : Nat → NotifyOutcome),
      ∀ r ∈ (processList st k entries).2,
        r.error.isSome = true → r.is_duplicate = false := by
  induction entries with
  | nil => intro st k r hr; simp [processList] at hr
  | cons e es ih =>
      intro st k r hr
      simp only [processList, List.mem_cons] at hr
      rcases hr with h | h
      · subst h; exact processOne_error_not_dup st e (k 0)
      · exact ih _ _ r h

theorem summarize_partition (rs : List ProcessResult)
    (h : ∀ r ∈ rs, r.error.isSome = true → r.is_duplicate = false) :
    (summarize rs).total =
      (summarize rs).processed + (summarize rs).duplicates +
        (summarize rs).errors := by
  induction rs with
  | nil => simp [summarize]
  | cons r rs ih =>
      have hr := h r (List.mem_cons_self r rs)
      have hrs : ∀ x ∈ rs, x.error.isSome = true → x.is_duplicate = false :=
        fun x hx => h x (List.mem_cons_of_mem r hx)
      have ih' := ih hrs
      simp only [summarize, List.filter_cons, List.length_cons] at ih' ⊢
      cases he : r.error with
      | none =>
          cases hd : r.is_duplicate <;>
            · simp only [he, hd] at *
              simp at *
              omega
      | some err =>
          have hd : r.is_duplicate = false := hr (by simp [he])
          simp only [he, hd] at *
          simp at *
          omega

/-- C2: for every batch, the summary satisfies
`total = processed + duplicates + errors`: the disjoint categories
(created without error, duplicate, error) cover all entries. -/
theorem summary_counts_invariant (reg : Registry)
    (entries : List RawEntry) (k : Nat → NotifyOutcome) :
    (summarize (processBatch reg entries k).2).total =
      (summarize (processBatch reg entries k).2).processed +
        (summarize (processBatch reg entries k).2).duplicates +
        (summarize (processBatch reg entries k).2).errors := by
  exact summarize_partition _ (processList_error_not_dup entries ⟨reg, []⟩ k)

/-! ## Claims C7 and C8: one ordered result per entry -/

theorem processList_length (entries : List RawEntry) :
    ∀ (st : StepState) (k : Nat → NotifyOutcome),
      ((processList st k entries).2).length = entries.length := by
  induction entries with
  | nil => intro st k; simp [processList]
  | cons e es ih => intro st k; simp [processList, ih]

theorem processOne_echo (st : StepState) (e : RawEntry)
    (notif : NotifyOutcome) :
    (processOne st e notif).2.name = e.name ∧
    (processOne st e notif).2.phone = e.phone ∧
    (processOne st e notif).2.appointment_time = e.appointment_time := by
  unfold processOne
  cases hn : normalizeEntry e with
  | error r => simp [errorResult]
  | ok n =>
      cases hm : matchEntry st.reg st.seen n <;>
        simp [hm, dupResult, createdResult]

theorem processList_get (es : List RawEntry) :
    ∀ (st : StepState) (k : Nat → NotifyOutcome) (i : Nat)
      (hi : i < es.length),
      ((processList st k es).2).get? i =
        some ((processOne ((processList st k (es.take i)).1)
          (es.get ⟨i, hi⟩) (k i)).2) := by
  induction es with
  | nil => intro st k i hi; simp at hi
  | cons e es ih =>
      intro st k i hi
      cases i with
      | zero => simp [processList]
      | succ j =>
          have hj : j < es.length := by
            simpa using Nat.lt_of_succ_lt_succ hi
          have := ih ((processOne st e (k 0)).1)
            (fun m => k (m + 1)) j hj
          simpa [processList] using this

/-- C8: the output results preserve the input order of the entries: the
i-th result is exactly the outcome of processing the i-th input entry
(with the i-th notification outcome) in the state left by the entries
before it. -/
theorem results_preserve_input_order (reg : Registry)
    (entries : List RawEntry) (k : Nat → NotifyOutcome) (i : Nat)
    (hi : i < entries.length) :
    ((processBatch reg entries k).2).get? i =
      some ((processOne ((processList ⟨reg, []⟩ k (entries.take i)).1)
        (entries.get ⟨i, hi⟩) (k i)).2) :=
  processList_get entries ⟨reg, []⟩ k i hi

/-- Witness for C8 on a concrete two-entry batch. -/
theorem results_preserve_input_order_witness :
    ((processBatch emptyRegistry
        [⟨['A'], examplePhoneB, some 600⟩, ⟨['R'], [], some 700⟩]
        allNotifyOk).2).get? 1 =
      some ((processOne ((processList ⟨emptyRegistry, []⟩ allNotifyOk
          [⟨['A'], examplePhoneB, some 600⟩]).1)
        ⟨['R'], [], some 700⟩ (allNotifyOk 1)).2) :=
  results_preserve_input_order emptyRegistry
    [⟨['A'], examplePhoneB, some 600⟩, ⟨['R'], [], some 700⟩]
    allNotifyOk 1 (by decide)

/-- C7: the Process operation returns exactly one `ProcessResult` per
input entry — the result list has the input's length and the i-th
result echoes the i-th entry's `name`, `phone` and `appointment_time`
(the remaining fields `is_new_patient`, `is_duplicate`, `patient_id`,
`appointment_id`, `intake_link`, `whatsapp_sent`, `whatsapp_error`,
`error` are the other components of the `ProcessResult` record). -/
theorem one_result_per_entry (reg : Registry) (entries : List RawEntry)
    (k : Nat → NotifyOutcome) :
    (processBatch reg entries k).2.length = entries.length ∧
    ∀ (i : Nat) (hi : i < entries.length), ∃ r,
      ((processBatch reg entries k).2).get? i = some r ∧
      r.name = (entries.get ⟨i, hi⟩).name ∧
      r.phone = (entries.get ⟨i, hi⟩).phone ∧
      r.appointment_time = (entries.get ⟨i, hi⟩).appointment_time := by
  refine ⟨processList_length entries ⟨reg, []⟩ k, ?_⟩
  intro i hi
  refine ⟨_, processList_get entries ⟨reg, []⟩ k i hi, ?_, ?_, ?_⟩
  · exact (processOne_echo _ _ _).1
  · exact (processOne_echo _ _ _).2.1
  · exact (processOne_echo _ _ _).2.2

/-- Witness for C7 on a concrete one-entry batch. -/
theorem one_result_per_entry_witness :
    (processBatch emptyRegistry [⟨['A'], examplePhoneB, some 600⟩]
        allNotifyOk).2.length = 1 ∧
    ∃ r, ((processBatch emptyRegistry [⟨['A'], examplePhoneB, some 600⟩]
        allNotifyOk).2).get? 0 = some r ∧
      r.name = ['A'] ∧ r.phone = examplePhoneB ∧
      r.appointment_time = some 600 := by
  have h := one_result_per_entry emptyRegistry
    [⟨['A'], examplePhoneB, some 600⟩] allNotifyOk
  exact ⟨h.1, h.2 0 (by decide)⟩

/-! ## Claim C6: notification failure never alters creation -/

/-- C6: for an entry whose patient/appointment creation succeeded (it
produced neither an error nor a duplicate outcome under a successful
notification), a failing notification leaves the post-entry registry
and dedup state exactly as a successful one would, and the result keeps
`patient_id` and `appointment_id` set, `error = none`, the same
`is_new_patient`, with `whatsapp_sent = false` and the gateway error
recorded in `whatsapp_error`. -/
theorem notify_failure_preserves_creation (st : StepState) (e : RawEntry)
    (err : List Char)
    (h : (processOne st e ⟨true, none⟩).2.error = none)
    (h2 : (processOne st e ⟨true, none⟩).2.is_duplicate = false) :
    (processOne st e ⟨false, some err⟩).1
      = (processOne st e ⟨true, none⟩).1 ∧
    (processOne st e ⟨false, some err⟩).2.patient_id.isSome = true ∧
    (processOne st e ⟨false, some err⟩).2.appointment_id.isSome = true ∧
    (processOne st e ⟨false, some err⟩).2.whatsapp_sent = false ∧
    (processOne st e ⟨false, some err⟩).2.whatsapp_error = some err ∧
    (processOne st e ⟨false, some err⟩).2.error = none ∧
    (processOne st e ⟨false, some err⟩).2.is_new_patient
      = (processOne st e ⟨true, none⟩).2.is_new_patient := by
  unfold processOne at *
  cases hn : normalizeEntry e with
  | error r => rw [hn] at h; simp [errorResult] at h
  | ok n =>
      rw [hn] at h2
      cases hm : matchEntry st.reg st.seen n with
      | duplicate_in_batch => simp [hm, dupResult] at h2
      | duplicate_existing_appointment => simp [hm, dupResult] at h2
      | existing_patient pid => simp [hm, createdResult]
      | new_patient => simp [hm, createdResult]

/-- Witness for C6: a concrete new-patient entry whose notification
fails. -/
theorem notify_failure_preserves_creation_witness :
    (processOne ⟨emptyRegistry, []⟩ ⟨['A'], examplePhoneB, some 600⟩
        ⟨false, some ['d', 'o', 'w', 'n']⟩).1
      = (processOne ⟨emptyRegistry, []⟩ ⟨['A'], examplePhoneB, some 600⟩
        ⟨true, none⟩).1 ∧
    (processOne ⟨emptyRegistry, []⟩ ⟨['A'], examplePhoneB, some 600⟩
        ⟨false, some ['d', 'o', 'w', 'n']⟩).2.patient_id.isSome = true ∧
    (processOne ⟨emptyRegistry, []⟩ ⟨['A'], examplePhoneB, some 600⟩
        ⟨false, some ['d', 'o', 'w', 'n']⟩).2.whatsapp_sent = false := by
  have h := notify_failure_preserves_creation ⟨emptyRegistry, []⟩
    ⟨['A'], examplePhoneB, some 600⟩ ['d', 'o', 'w', 'n']
    (by decide) (by decide)
  exact ⟨h.1, h.2.1, h.2.2.2.1⟩

/-! ## Claim C3: batch-order duplicates take precedence -/

theorem processOne_seen_mono (st : StepState) (e : RawEntry)
    (notif : NotifyOutcome) (x : List Char) (h : x ∈ st.seen) :
    x ∈ (processOne st e notif).1.seen := by
  unfold processOne
  cases hn : normalizeEntry e with
  | error r => exact h
  | ok n =>
      cases hm : matchEntry st.reg st.seen n <;>
        · simp only [hm]
          exact List.mem_cons_of_mem _ h

theorem processList_nil (st : StepState) (k : Nat → NotifyOutcome) :
    processList st k [] = (st, []) := rfl

theorem processList_cons (st : StepState) (k : Nat → NotifyOutcome)
    (e : RawEntry) (es : List RawEntry) :
    processList st k (e :: es) =
      ((processList (processOne st e (k 0)).1 (fun i => k (i + 1)) es).1,
        (processOne st e (k 0)).2 ::
          (processList (processOne st e (k 0)).1
            (fun i => k (i + 1)) es).2) := rfl

theorem matchEntry_of_seen (reg : Registry) (seen : List (List Char))
    (n : NormalizedEntry) (h : seen.contains n.phone_canonical = true) :
    matchEntry reg seen n = .duplicate_in_batch := by
  have h' : n.phone_canonical ∈ seen := by simpa using h
  simp [matchEntry, h']

theorem processOne_of_seen (st : StepState) (e : RawEntry)
    (notif : NotifyOutcome) (n : NormalizedEntry)
    (hn : normalizeEntry e = .ok n)
    (h : n.phone_canonical ∈ st.seen) :
    processOne st e notif =
      (⟨st.reg, n.phone_canonical :: st.seen⟩,
        dupResult e .duplicate_in_batch) := by
  have hm := matchEntry_of_seen st.reg st.seen n (List.elem_eq_true_of_mem h)
  unfold processOne
  rw [hn]
  dsimp only
  rw [hm]

theorem processOne_valid_seen (st : StepState) (e : RawEntry)
    (notif : NotifyOutcome) (n : NormalizedEntry)
    (hn : normalizeEntry e = .ok n) :
    (processOne st e notif).1.seen = n.phone_canonical :: st.seen := by
  unfold processOne
  rw [hn]
  cases hm : matchEntry st.reg st.seen n <;> simp [hm]

theorem dup_after_seen (mid : List RawEntry) :
    ∀ (st : StepState) (k : Nat → NotifyOutcome) (e2 : RawEntry)
      (post : List RawEntry) (n2 : NormalizedEntry),
      normalizeEntry e2 = .ok n2 → n2.phone_canonical ∈ st.seen →
      ∃ rsA r2 rsC,
        (processList st k (mid ++ e2 :: post)).2 = rsA ++ r2 :: rsC ∧
        rsA.length = mid.length ∧
        r2 = dupResult e2 .duplicate_in_batch := by
  induction mid with
  | nil =>
      intro st k e2 post n2 hn2 hmem
      have h1 := processOne_of_seen st e2 (k 0) n2 hn2 hmem
      refine ⟨[], dupResult e2 .duplicate_in_batch,
        (processList ⟨st.reg, n2.phone_canonical :: st.seen⟩
          (fun i => k (i + 1)) post).2, ?_, rfl, rfl⟩
      simp only [List.nil_append, processList_cons, h1]
  | cons m ms ih =>
      intro st k e2 post n2 hn2 hmem
      obtain ⟨rsA, r2, rsC, heq, hlen, hr⟩ :=
        ih ((processOne st m (k 0)).1) (fun i => k (i + 1)) e2 post n2
          hn2 (processOne_seen_mono st m (k 0) _ hmem)
      refine ⟨(processOne st m (k 0)).2 :: rsA, r2, rsC, ?_, ?_, hr⟩
      · simp only [List.cons_append, processList_cons]
        exact congrArg _ heq
      · simp only [List.length_cons, hlen]

theorem inbatch_dup_later_entry (pre : List RawEntry) :
    ∀ (st : StepState) (k : Nat → NotifyOutcome) (e1 : RawEntry)
      (mid : List RawEntry) (e2 : RawEntry) (post : List RawEntry)
      (n1 n2 : NormalizedEntry),
      normalizeEntry e1 = .ok n1 → normalizeEntry e2 = .ok n2 →
      n2.phone_canonical = n1.phone_canonical →
      ∃ rsA r2 rsC,
        (processList st k (pre ++ e1 :: mid ++ e2 :: post)).2
          = rsA ++ r2 :: rsC ∧
        rsA.length = pre.length + 1 + mid.length ∧
        r2 = dupResult e2 .duplicate_in_batch := by
  induction pre with
  | nil =>
      intro st k e1 mid e2 post n1 n2 h1 h2 hp
      obtain ⟨rsA, r2, rsC, heq, hlen, hr⟩ :=
        dup_after_seen mid ((processOne st e1 (k 0)).1)
          (fun i => k (i + 1)) e2 post n2 h2
          (by
            rw [processOne_valid_seen st e1 (k 0) n1 h1, hp]
            exact List.mem_cons_self _ _)
      refine ⟨(processOne st e1 (k 0)).2 :: rsA, r2, rsC, ?_, ?_, hr⟩
      · simp only [List.nil_append, List.cons_append, processList_cons]
        exact congrArg _ heq
      · simp only [List.length_cons, hlen, List.length_nil]
        omega
  | cons p ps ih =>
      intro st k e1 mid e2 post n1 n2 h1 h2 hp
      obtain ⟨rsA, r2, rsC, heq, hlen, hr⟩ :=
        ih ((processOne st p (k 0)).1) (fun i => k (i + 1)) e1 mid e2
          post n1 n2 h1 h2 hp
      refine ⟨(processOne st p (k 0)).2 :: rsA, r2, rsC, ?_, ?_, hr⟩
      · simp only [List.cons_append, processList_cons]
        exact congrArg _ heq
      · simp only [List.length_cons, hlen]
        omega

/-- C3 (amended): if an earlier entry of the batch reached the Dedup
stage (i.e. was valid) with a given canonical phone, then every later
valid entry with the same canonical phone resolves to
`duplicate_in_batch` — regardless of the registry, so the batch-order
check takes precedence over the registry duplicate-appointment check —
and creates no patient or appointment.  (Invalid entries never reach
Dedup and do not claim their phone.) -/
theorem batch_dup_precedence (reg : Registry) (k : Nat → NotifyOutcome)
    (pre mid post : List RawEntry) (e1 e2 : RawEntry)
    (n1 n2 : NormalizedEntry)
    (h1 : normalizeEntry e1 = .ok n1) (h2 : normalizeEntry e2 = .ok n2)
    (hp : n2.phone_canonical = n1.phone_canonical) :
    ∃ rsA r2 rsC,
      (processBatch reg (pre ++ e1 :: mid ++ e2 :: post) k).2
        = rsA ++ r2 :: rsC ∧
      rsA.length = pre.length + 1 + mid.length ∧
      r2.decision = some .duplicate_in_batch ∧
      r2.is_duplicate = true ∧
      r2.patient_id = none ∧ r2.appointment_id = none ∧
      r2.error = none := by
  obtain ⟨rsA, r2, rsC, heq, hlen, hr⟩ :=
    inbatch_dup_later_entry pre ⟨reg, []⟩ k e1 mid e2 post n1 n2 h1 h2 hp
  exact ⟨rsA, r2, rsC, heq, hlen, by rw [hr]; rfl, by rw [hr]; rfl,
    by rw [hr]; rfl, by rw [hr]; rfl, by rw [hr]; rfl⟩

/-- Witness for C3 (amended): two valid entries sharing a phone but on
different days — the second is still `duplicate_in_batch`. -/
theorem batch_dup_precedence_witness :
    ∃ rsA r2 rsC,
      (processBatch emptyRegistry
          [⟨['A'], examplePhoneB, some 600⟩,
           ⟨['B'], examplePhoneA, some 2000⟩] allNotifyOk).2
        = rsA ++ r2 :: rsC ∧
      rsA.length = 1 ∧
      r2.decision = some .duplicate_in_batch ∧
      r2.is_duplicate = true ∧
      r2.patient_id = none ∧ r2.appointment_id = none ∧
      r2.error = none := by
  have h := batch_dup_precedence emptyRegistry allNotifyOk [] [] []
    ⟨['A'], examplePhoneB, some 600⟩ ⟨['B'], examplePhoneA, some 2000⟩
    ⟨['A'], examplePhoneB, 600⟩ ⟨['B'], examplePhoneB, 2000⟩
    rfl rfl rfl
  simpa using h

/-- Counterexample to C3 as stated: when the first entry with a given
canonical phone is invalid (missing schedule) it never reaches Dedup, so
a later valid entry with the same canonical phone is *not*
`duplicate_in_batch` — it creates a patient and an appointment. -/
theorem batch_dup_invalid_first_counterexample :
    normalizePhone (⟨['A'], examplePhoneB, none⟩ : RawEntry).phone
      = normalizePhone (⟨['B'], examplePhoneA, some 600⟩ : RawEntry).phone ∧
    (normalizePhone (⟨['A'], examplePhoneB, none⟩ : RawEntry).phone).isSome
      = true ∧
    (processBatch emptyRegistry
        [⟨['A'], examplePhoneB, none⟩, ⟨['B'], examplePhoneA, some 600⟩]
        allNotifyOk).2.map (fun r => r.decision)
      = [none, some .new_patient] ∧
    some MatchDecision.new_patient ≠ some MatchDecision.duplicate_in_batch ∧
    (processBatch emptyRegistry
        [⟨['A'], examplePhoneB, none⟩, ⟨['B'], examplePhoneA, some 600⟩]
        allNotifyOk).1.patients.length = 1 := by
  decide

theorem regExtends_refl (a : Registry) : RegExtends a a :=
  ⟨⟨[], by simp⟩, ⟨[], by simp⟩⟩

theorem regExtends_trans {a b c : Registry}
    (h1 : RegExtends a b) (h2 : RegExtends b c) : RegExtends a c := by
  obtain ⟨⟨ps1, hp1⟩, ⟨la1, ha1⟩⟩ := h1
  obtain ⟨⟨ps2, hp2⟩, ⟨la2, ha2⟩⟩ := h2
  exact ⟨⟨ps1 ++ ps2, by rw [hp2, hp1, List.append_assoc]⟩,
    ⟨la1 ++ la2, by rw [ha2, ha1, List.append_assoc]⟩⟩

theorem createPatient_extends (reg : Registry) (name phone : List Char) :
    RegExtends reg (createPatient reg name phone).2 :=
  ⟨⟨[⟨reg.nextPatientId, name, phone⟩], rfl⟩,
    ⟨[], by simp [createPatient]⟩⟩

theorem createAppointment_extends (reg : Registry) (pid t : Nat) :
    RegExtends reg (createAppointment reg pid t).2 :=
  ⟨⟨[], by simp [createAppointment]⟩, ⟨[⟨reg.nextApptId, pid, t⟩], rfl⟩⟩

theorem processOne_extends (st : StepState) (e : RawEntry)
    (notif : NotifyOutcome) :
    RegExtends st.reg (processOne st e notif).1.reg := by
  unfold processOne
  cases hn : normalizeEntry e with
  | error r => exact regExtends_refl _
  | ok n =>
      cases hm : matchEntry st.reg st.seen n with
      | duplicate_in_batch => simp only [hm]; exact regExtends_refl _
      | duplicate_existing_appointment =>
          simp only [hm]; exact regExtends_refl _
      | existing_patient pid =>
          simp only [hm]
          exact createAppointment_extends st.reg pid n.appointment_time
      | new_patient =>
          simp only [hm]
          exact regExtends_trans
            (createPatient_extends st.reg n.name n.phone_canonical)
            (createAppointment_extends _ _ n.appointment_time)

theorem processList_extends (es : List RawEntry) :
    ∀ (st : StepState) (k : Nat → NotifyOutcome),
      RegExtends st.reg (processList st k es).1.reg := by
  induction es with
  | nil => intro st k; exact regExtends_refl _
  | cons e es ih =>
      intro st k
      exact regExtends_trans (processOne_extends st e (k 0)) (ih _ _)

theorem coveredEntry_mono {a b : Registry} (n : NormalizedEntry)
    (hab : RegExtends a b) (h : coveredEntry a n = true) :
    coveredEntry b n = true := by
  obtain ⟨⟨ps, hp⟩, ⟨la, ha⟩⟩ := hab
  unfold coveredEntry at *
  cases hf : findPatientByPhone a n.phone_canonical with
  | none => rw [hf] at h; cases h
  | some p =>
      rw [hf] at h
      dsimp only at h
      have hf2 : findPatientByPhone b n.phone_canonical = some p := by
        unfold findPatientByPhone at *
        rw [hp, List.find?_append, hf]
        rfl
      rw [hf2]
      dsimp only
      unfold hasAppointmentOn at h ⊢
      rw [ha, List.any_append, h]
      rfl

theorem matchEntry_of_covered (reg : Registry) (seen : List (List Char))
    (n : NormalizedEntry)
    (hc : seen.contains n.phone_canonical = false)
    (hcov : coveredEntry reg n = true) :
    matchEntry reg seen n = .duplicate_existing_appointment := by
  unfold coveredEntry at hcov
  unfold matchEntry
  cases hf : findPatientByPhone reg n.phone_canonical with
  | none => rw [hf] at hcov; cases hcov
  | some p =>
      rw [hf] at hcov
      dsimp only at hcov
      have hc2 : n.phone_canonical ∉ seen := by simpa using hc
      simp [hc2, hcov]

theorem processOne_of_covered (st : StepState) (e : RawEntry)
    (notif : NotifyOutcome) (n : NormalizedEntry)
    (hn : normalizeEntry e = .ok n)
    (hc : st.seen.contains n.phone_canonical = false)
    (hcov : coveredEntry st.reg n = true) :
    processOne st e notif =
      (⟨st.reg, n.phone_canonical :: st.seen⟩,
        dupResult e .duplicate_existing_appointment) := by
  have hm := matchEntry_of_covered st.reg st.seen n hc hcov
  unfold processOne
  rw [hn]
  dsimp only
  rw [hm]

theorem matchEntry_existing_inv (reg : Registry)
    (seen : List (List Char)) (n : NormalizedEntry) (pid : Nat)
    (h : matchEntry reg seen n = .existing_patient pid) :
    ∃ p, findPatientByPhone reg n.phone_canonical = some p ∧
      p.id = pid := by
  unfold matchEntry at h
  split at h
  · simp at h
  · split at h
    next p hf =>
        split at h
        · simp at h
        · simp only [MatchDecision.existing_patient.injEq] at h
          exact ⟨p, hf, h⟩
    next hf => simp at h

theorem matchEntry_new_inv (reg : Registry) (seen : List (List Char))
    (n : NormalizedEntry) (h : matchEntry reg seen n = .new_patient) :
    findPatientByPhone reg n.phone_canonical = none := by
  unfold matchEntry at h
  split at h
  · simp at h
  · split at h
    next p hf => split at h <;> simp at h
    next hf => exact hf

theorem covered_after_create_existing (reg : Registry)
    (n : NormalizedEntry) (p : Patient)
    (hf : findPatientByPhone reg n.phone_canonical = some p) :
    coveredEntry (createAppointment reg p.id n.appointment_time).2 n
      = true := by
  unfold coveredEntry
  have hfind : findPatientByPhone
      (createAppointment reg p.id n.appointment_time).2
      n.phone_canonical = some p := by
    unfold findPatientByPhone at *
    simpa [createAppointment] using hf
  rw [hfind]
  simp [hasAppointmentOn, createAppointment, List.any_append]

theorem covered_after_create_new (reg : Registry) (n : NormalizedEntry)
    (hf : findPatientByPhone reg n.phone_canonical = none) :
    coveredEntry
      (createAppointment (createPatient reg n.name n.phone_canonical).2
        (createPatient reg n.name n.phone_canonical).1.id
        n.appointment_time).2 n = true := by
  unfold coveredEntry
  have hfind : findPatientByPhone
      (createAppointment (createPatient reg n.name n.phone_canonical).2
        (createPatient reg n.name n.phone_canonical).1.id
        n.appointment_time).2 n.phone_canonical =
      some (createPatient reg n.name n.phone_canonical).1 := by
    unfold findPatientByPhone at *
    simp [createAppointment, createPatient, List.find?_append, hf]
  rw [hfind]
  simp [hasAppointmentOn, createAppointment, createPatient,
    List.any_append]

/-- A created entry (no error, not a duplicate) was valid, claimed a
fresh phone in the batch, and leaves a registry that covers it. -/
theorem processOne_created (st : StepState) (e : RawEntry)
    (notif : NotifyOutcome)
    (h : (processOne st e notif).2.error = none)
    (h2 : (processOne st e notif).2.is_duplicate = false) :
    ∃ n, normalizeEntry e = .ok n ∧
      st.seen.contains n.phone_canonical = false ∧
      (processOne st e notif).1.seen = n.phone_canonical :: st.seen ∧
      coveredEntry (processOne st e notif).1.reg n = true := by
  cases hn : normalizeEntry e with
  | error r =>
      unfold processOne at h
      rw [hn] at h
      simp [errorResult] at h
  | ok n =>
      have hc : st.seen.contains n.phone_canonical = false := by
        cases hcc : st.seen.contains n.phone_canonical with
        | false => rfl
        | true =>
            have hd := processOne_of_seen st e notif n hn
              (by simpa using hcc)
            rw [hd] at h2
            simp [dupResult] at h2
      refine ⟨n, rfl, hc, processOne_valid_seen st e notif n hn, ?_⟩
      cases hm : matchEntry st.reg st.seen n with
      | duplicate_in_batch =>
          exfalso
          unfold processOne at h2
          rw [hn] at h2
          dsimp only at h2
          rw [hm] at h2
          simp [dupResult] at h2
      | duplicate_existing_appointment =>
          exfalso
          unfold processOne at h2
          rw [hn] at h2
          dsimp only at h2
          rw [hm] at h2
          simp [dupResult] at h2
      | existing_patient pid =>
          obtain ⟨p, hf, hpid⟩ := matchEntry_existing_inv st.reg st.seen
            n pid hm
          have hpost : (processOne st e notif).1.reg =
              (createAppointment st.reg pid n.appointment_time).2 := by
            unfold processOne
            rw [hn]
            dsimp only
            rw [hm]
          rw [hpost, ← hpid]
          exact covered_after_create_existing st.reg n p hf
      | new_patient =>
          have hf := matchEntry_new_inv st.reg st.seen n hm
          have hpost : (processOne st e notif).1.reg =
              (createAppointment
                (createPatient st.reg n.name n.phone_canonical).2
                (createPatient st.reg n.name n.phone_canonical).1.id
                n.appointment_time).2 := by
            unfold processOne
            rw [hn]
            dsimp only
            rw [hm]
          rw [hpost]
          exact covered_after_create_new st.reg n hf

/-- Simulation: when every entry of a run was created, rerunning the
same entries against any extension of the run's final registry changes
nothing and resolves every entry to `duplicate_existing_appointment`. -/
theorem run2_sim (entries : List RawEntry) :
    ∀ (st : StepState) (k kk : Nat → NotifyOutcome) (regF : Registry),
      (∀ r ∈ (processList st k entries).2,
        r.error = none ∧ r.is_duplicate = false) →
      RegExtends (processList st k entries).1.reg regF →
      (processList ⟨regF, st.seen⟩ kk entries).1.reg = regF ∧
      (processList ⟨regF, st.seen⟩ kk entries).1.seen
        = (processList st k entries).1.seen ∧
      ∀ r ∈ (processList ⟨regF, st.seen⟩ kk entries).2,
        r.decision = some .duplicate_existing_appointment := by
  induction entries with
  | nil =>
      intro st k kk regF hall hext
      exact ⟨rfl, rfl, by intro r hr; simp [processList_nil] at hr⟩
  | cons e es ih =>
      intro st k kk regF hall hext
      have hhead := hall (processOne st e (k 0)).2
        (by rw [processList_cons]; exact List.mem_cons_self _ _)
      obtain ⟨n, hn, hc, hseen, hcov⟩ :=
        processOne_created st e (k 0) hhead.1 hhead.2
      have hext1 : RegExtends (processOne st e (k 0)).1.reg regF :=
        regExtends_trans
          (processList_extends es ((processOne st e (k 0)).1)
            (fun i => k (i + 1))) hext
      have hcovF : coveredEntry regF n = true :=
        coveredEntry_mono n hext1 hcov
      have h2head := processOne_of_covered ⟨regF, st.seen⟩ e (kk 0) n hn
        hc hcovF
      have hstep : (processOne ⟨regF, st.seen⟩ e (kk 0)).1
          = ⟨regF, n.phone_canonical :: st.seen⟩ := by rw [h2head]
      have hallTail : ∀ r ∈ (processList ((processOne st e (k 0)).1)
          (fun i => k (i + 1)) es).2,
          r.error = none ∧ r.is_duplicate = false := by
        intro r hr
        exact hall r
          (by rw [processList_cons]; exact List.mem_cons_of_mem _ hr)
      have hih := ih ((processOne st e (k 0)).1) (fun i => k (i + 1))
        (fun i => kk (i + 1)) regF hallTail hext
      rw [hseen] at hih
      refine ⟨?_, ?_, ?_⟩
      · show (processList (processOne ⟨regF, st.seen⟩ e (kk 0)).1
          (fun i => kk (i + 1)) es).1.reg = regF
        rw [hstep]
        exact hih.1
      · show (processList (processOne ⟨regF, st.seen⟩ e (kk 0)).1
          (fun i => kk (i + 1)) es).1.seen
          = (processList ((processOne st e (k 0)).1)
              (fun i => k (i + 1)) es).1.seen
        rw [hstep]
        exact hih.2.1
      · intro r hr
        have hr2 : r ∈ (processOne ⟨regF, st.seen⟩ e (kk 0)).2 ::
            (processList (processOne ⟨regF, st.seen⟩ e (kk 0)).1
              (fun i => kk (i + 1)) es).2 := hr
        rcases List.mem_cons.mp hr2 with hcase | hcase
        · rw [h2head] at hcase
          rw [hcase]
          rfl
        · rw [hstep] at hcase
          exact hih.2.2 r hcase

/-- C1 (amended): for an accepted batch all of whose entries were
actually created on the first run (no errors and no duplicate outcomes),
reprocessing the identical batch against the registry left by the first
run changes the registry not at all — zero new patients and zero new
appointments — and every entry of the second run resolves to
`duplicate_existing_appointment`.  (If the first run itself contained
in-batch duplicates, those entries resolve to `duplicate_in_batch`
again on the second run, still creating nothing.) -/
theorem reprocess_batch_idempotent (reg : Registry)
    (entries : List RawEntry) (k kk : Nat → NotifyOutcome)
    (h : ∀ r ∈ (processBatch reg entries k).2,
      r.error = none ∧ r.is_duplicate = false) :
    (processBatch (processBatch reg entries k).1 entries kk).1
      = (processBatch reg entries k).1 ∧
    ∀ r ∈ (processBatch (processBatch reg entries k).1 entries kk).2,
      r.decision = some .duplicate_existing_appointment := by
  have hs := run2_sim entries ⟨reg, []⟩ k kk
    (processList ⟨reg, []⟩ k entries).1.reg h (regExtends_refl _)
  exact ⟨hs.1, hs.2.2⟩

/-- Witness for C1 (amended) on a concrete singleton batch. -/
theorem reprocess_batch_idempotent_witness :
    (processBatch (processBatch emptyRegistry
        [⟨['A'], examplePhoneB, some 600⟩] allNotifyOk).1
      [⟨['A'], examplePhoneB, some 600⟩] allNotifyOk).1
      = (processBatch emptyRegistry [⟨['A'], examplePhoneB, some 600⟩]
          allNotifyOk).1 ∧
    ∀ r ∈ (processBatch (processBatch emptyRegistry
        [⟨['A'], examplePhoneB, some 600⟩] allNotifyOk).1
      [⟨['A'], examplePhoneB, some 600⟩] allNotifyOk).2,
      r.decision = some .duplicate_existing_appointment :=
  reprocess_batch_idempotent emptyRegistry
    [⟨['A'], examplePhoneB, some 600⟩] allNotifyOk allNotifyOk
    (by decide)

/-- Counterexample to C1 as stated: a batch holding the same entry twice
is accepted and creates one patient and appointment on the first run;
on the second run it creates nothing, but its second entry resolves to
`duplicate_in_batch`, not `duplicate_existing_appointment`. -/
theorem reprocess_inbatch_dup_counterexample :
    (processBatch (processBatch emptyRegistry
        [⟨['A'], examplePhoneB, some 600⟩,
         ⟨['A'], examplePhoneB, some 600⟩] allNotifyOk).1
      [⟨['A'], examplePhoneB, some 600⟩,
       ⟨['A'], examplePhoneB, some 600⟩] allNotifyOk).2.map
        (fun r => r.decision)
      = [some .duplicate_existing_appointment,
         some .duplicate_in_batch] ∧
    some MatchDecision.duplicate_in_batch
      ≠ some MatchDecision.duplicate_existing_appointment ∧
    (processBatch emptyRegistry
        [⟨['A'], examplePhoneB, some 600⟩,
         ⟨['A'], examplePhoneB, some 600⟩] allNotifyOk).2.map
        (fun r => r.error) = [none, none] := by
  decide

/-- C9: the registry schema admits states the pipeline is supposed to
prevent — two patients with the same canonical phone, and two same-day
appointments for one patient, both satisfy every declared constraint of
the `patients` and `appointments` tables, so dedup and double-booking
protection rest entirely on the pipeline logic. -/
theorem schema_permits_shared_phone_and_same_day :
    patientsTableOk twoPatientsSamePhone = true ∧
    twoPatientsSamePhone.map (fun r => r.phone)
      = [some examplePhoneB, some examplePhoneB] ∧
    (twoPatientsSamePhone.map (fun r => r.id)).Nodup ∧
    appointmentsTableOk twoPatientsSamePhone twoSameDayAppointments
      = true ∧
    twoSameDayAppointments.map (fun r => r.patient_id)
      = [some ['p', '1'], some ['p', '1']] ∧
    twoSameDayAppointments.map (fun r => calendarDate r.start_time)
      = [0, 0] := by
  decide

/-- C10: an intake token inserted without explicit `status`,
`created_at` or `expires_at` (as the self-intake link creation does) is
stored as `'pending'` and expires exactly 24 hours after its creation
time. -/
theorem intake_token_default_pending_24h (now : Nat)
    (ins : IntakeTokenInsert) (h1 : ins.status = none)
    (h2 : ins.created_at = none) (h3 : ins.expires_at = none) :
    (applyIntakeDefaults now ins).status = pendingStatus ∧
    (applyIntakeDefaults now ins).created_at = now ∧
    (applyIntakeDefaults now ins).expires_at
      = (applyIntakeDefaults now ins).created_at + 24 * 60 := by
  simp [applyIntakeDefaults, h1, h2, h3]

/-- Witness for C10 at a concrete token insert. -/
theorem intake_token_default_witness :
    (applyIntakeDefaults 1000
        ⟨['t'], none, none, examplePhoneB, none, none, none⟩).status
      = pendingStatus ∧
    (applyIntakeDefaults 1000
        ⟨['t'], none, none, examplePhoneB, none, none, none⟩).created_at
      = 1000 ∧
    (applyIntakeDefaults 1000
        ⟨['t'], none, none, examplePhoneB, none, none, none⟩).expires_at
      = (applyIntakeDefaults 1000
          ⟨['t'], none, none, examplePhoneB, none, none,
            none⟩).created_at + 24 * 60 :=
  intake_token_default_pending_24h 1000
    ⟨['t'], none, none, examplePhoneB, none, none, none⟩ rfl rfl rfl

end Parchi
